import Mathlib

/-!
# Verification of the CRI index calculation / verification pipeline

A shallow embedding, over the rationals, of the core of the pipeline:

* `pipeline/calculate.py` — daily price loading, outlier removal, windowed
  aggregation and the published index value (`remove_outliers`, `calculate`,
  `load_daily_prices`);
* `pipeline/verify.py` — the independent re-derivation path
  (`load_prices`, `remove_outliers`, `get_published_value`, `verify`).

Modelling conventions:

* Python floats are modelled as `ℚ`.  The pipeline's arithmetic (sums, means,
  Bessel-corrected sample variance, medians, comparisons) is rational except
  for the square root inside `statistics.stdev`; every use of the standard
  deviation in control flow is of the form `stdev == 0` or
  `abs (p - m) <= sigma * stdev`, which are encoded exactly over `ℚ` as
  `variance = 0` and `0 ≤ sigma ∧ (p - m)^2 ≤ sigma^2 * variance`
  (equivalent over the reals since `stdev = sqrt variance ≥ 0`).
* `int(n * 0.10)` on a list length `n` is embedded as Nat division `n / 10`:
  for every list size below `2^53` the float product `n * 0.1` rounds to a
  value with the same floor as `n / 10`.
* A day's CSV data file is `Option (List (Option ℚ))`: `none` when the file is
  absent, otherwise one entry per row holding the parsed price, with `none`
  for a row whose price cell is missing or fails numeric parsing
  (`KeyError` / `ValueError` are caught and the row skipped).
* `round(x, 4)` is embedded as exact round-half-to-even at 4 decimal places.
* Fields of the result dictionaries that are pure I/O provenance (timestamps,
  methodology text) are not modelled; the `stdev` entry of the summary block
  (a rounded irrational square root, read by no decision in the pipeline and
  by no claim) is likewise left out of the `ℚ` embedding.
-/

namespace CRIH100

/-- The constant `OUTLIER_SIGMA = 2.5` shared by `calculate.py` and
`verify.py`. -/
def OUTLIER_SIGMA : ℚ := 5 / 2

/-- Minimum observations for a day to be included in the window. -/
def MIN_OBSERVATIONS_DAY : Nat := 10

/-- Minimum valid days before the result is flagged low-confidence. -/
def MIN_VALID_DAYS : Nat := 3

/-- Embeds `statistics.mean`: arithmetic mean (callers only use it on non-empty
lists). -/
def mean (l : List ℚ) : ℚ := l.sum / l.length

/-- The square of `statistics.stdev`: Bessel-corrected sample variance with
divisor `n - 1` (callers only use it on lists of length ≥ 4). -/
def sampleVariance (l : List ℚ) : ℚ :=
  ((l.map (fun x => (x - mean l) ^ 2)).sum) / ((l.length : ℚ) - 1)

/-- Embeds `sorted(prices)`: ascending sort.  The elements are plain rational
values, so the non-decreasing reordering of the list is unique and any correct
ascending sort computes exactly Python's `sorted`. -/
def sortAsc (l : List ℚ) : List ℚ := l.insertionSort (· ≤ ·)

/-- Embeds `statistics.median`: middle element of the sorted list, or the average of
the two middle elements when the length is even. -/
def median (l : List ℚ) : ℚ :=
  let s := sortAsc l
  let n := l.length
  if n % 2 = 1 then s.getD (n / 2) 0
  else (s.getD (n / 2 - 1) 0 + s.getD (n / 2) 0) / 2

/-- Round to the nearest integer, ties to the even integer (CPython's
`round`). -/
def roundHalfEven (q : ℚ) : ℤ :=
  if q - ⌊q⌋ < 1 / 2 then ⌊q⌋
  else if 1 / 2 < q - ⌊q⌋ then ⌊q⌋ + 1
  else if ⌊q⌋ % 2 = 0 then ⌊q⌋ else ⌊q⌋ + 1

/-- Embeds `round(q, 4)`. -/
def round4 (q : ℚ) : ℚ := (roundHalfEven (q * 10000) : ℚ) / 10000

/-- Embeds `trim_n = max(1, int(n * 0.10))`. -/
def trimCount (n : Nat) : Nat := max 1 (n / 10)

/-- The filter's keep test `abs (p - t_mean) <= sigma * stdev`, encoded
exactly over `ℚ` (with `v` the sample variance, so `stdev = sqrt v`):
for `v ≥ 0` the real inequality holds iff
`0 ≤ sigma ∧ (p - t_mean)^2 ≤ sigma^2 * v`. -/
def withinThreshold (t_mean v sigma p : ℚ) : Bool :=
  decide (0 ≤ sigma ∧ (p - t_mean) ^ 2 ≤ sigma ^ 2 * v)

/-- A day's data file: `none` = absent, otherwise the per-row parse results of
the price column. -/
abbrev DayFile := Option (List (Option ℚ))

/-- The observation store: data file contents per date string. -/
abbrev Store := String → DayFile

namespace Calculate

/-- Embeds `calculate.py: remove_outliers(prices, sigma)`. -/
def remove_outliers (prices : List ℚ) (sigma : ℚ) : List ℚ × Nat :=
  if prices.length < 4 then (prices, 0)
  else
    let sorted_p := sortAsc prices
    let trim_n := trimCount prices.length
    let trimmed := (sorted_p.drop trim_n).take (prices.length - 2 * trim_n)
    let t_mean := mean trimmed
    let var := sampleVariance prices
    if var = 0 then (prices, 0)
    else
      let cleaned := prices.filter (withinThreshold t_mean var sigma)
      (cleaned, prices.length - cleaned.length)

/-- Embeds `calculate.py: load_daily_prices(model_dir, date_str)`: absent file gives
`None`; rows failing to parse are skipped; zero parsed rows also gives
`None`. -/
def load_daily_prices (fs : Store) (date : String) : Option (List ℚ) :=
  match fs date with
  | none => none
  | some rows =>
    let prices := rows.filterMap id
    if prices.isEmpty then none else some prices

/-- One entry of the `daily` summary list.  The Python code builds
heterogeneous dictionaries; absent keys are modelled as `none`. -/
structure DailySummary where
  date : String
  status : String
  n : Option Nat
  n_raw : Option Nat
  n_removed : Option Nat
  n_used : Option Nat
  daily_median : Option ℚ
  daily_mean : Option ℚ
deriving Repr, DecidableEq

/-- The loop body of `calculate` for one date: the daily summary recorded and
the observations contributed to the window pool. -/
def processDay (fs : Store) (date : String) : DailySummary × List ℚ :=
  match load_daily_prices fs date with
  | none => (⟨date, "missing", some 0, none, none, none, none, none⟩, [])
  | some raw =>
    if raw.length < MIN_OBSERVATIONS_DAY then
      (⟨date, "low_confidence", none, some raw.length, none, some 0, none, none⟩, [])
    else
      let co := remove_outliers raw OUTLIER_SIGMA
      if co.1.isEmpty then
        (⟨date, "empty_after_outlier_removal", none, some raw.length, none, some 0,
          none, none⟩, [])
      else
        (⟨date, "included", none, some raw.length, some co.2, some co.1.length,
          some (round4 (median co.1)), some (round4 (mean co.1))⟩, co.1)

/-- The `for date_str in dates` loop of `calculate`: daily summaries in date
order, pooled prices in date order, and the count of valid (included) days. -/
def calcDays (fs : Store) : List String → List DailySummary × List ℚ × Nat
  | [] => ([], [], 0)
  | d :: ds =>
    let pd := processDay fs d
    let rest := calcDays fs ds
    (pd.1 :: rest.1, pd.2 ++ rest.2.1,
      (if pd.1.status = "included" then 1 else 0) + rest.2.2)

/-- The `min`/`max`/`mean` entries of the summary block (the `stdev` entry, an
irrational square root unused by any decision, is outside the `ℚ` model). -/
structure SummaryStats where
  min : ℚ
  max : ℚ
  mean : ℚ
deriving Repr, DecidableEq

/-- Python's `min` over a non-empty list. -/
def listMin : List ℚ → ℚ
  | [] => 0
  | h :: t => t.foldl min h

/-- Python's `max` over a non-empty list. -/
def listMax : List ℚ → ℚ
  | [] => 0
  | h :: t => t.foldl max h

/-- The result dictionary of `calculate`; keys absent in one of the two return
branches are modelled as `Option` fields. -/
structure CalculationResult where
  index_name : String
  end_date : String
  window_days : Option Nat
  index_value : Option ℚ
  n_observations : Option Nat
  valid_days : Nat
  low_confidence : Bool
  low_confidence_reason : Option String
  summary : Option SummaryStats
  daily : List DailySummary
deriving Repr, DecidableEq

/-- Embeds `calculate.py: calculate(model_dir, end_date, ...)`.  The window's date
strings (derived in Python from `end_date` by calendar arithmetic, oldest
first) are passed explicitly as `dates`; `window_days = dates.length`. -/
def calculate (fs : Store) (end_date : String) (dates : List String)
    (index_name : String) : CalculationResult :=
  let r := calcDays fs dates
  let daily_summaries := r.1
  let all_prices := r.2.1
  let valid_days := r.2.2
  if all_prices.isEmpty then
    ⟨index_name, end_date, none, none, none, 0, true,
      some ("no valid observations in window"), none, daily_summaries⟩
  else
    let index_value := round4 (median all_prices)
    let low_conf : Bool := decide (valid_days < MIN_VALID_DAYS)
    ⟨index_name, end_date, some dates.length, some index_value,
      some all_prices.length, valid_days, low_conf,
      if low_conf then
        some ("only " ++ toString valid_days ++ " valid days in " ++
          toString dates.length ++ "-day window")
      else none,
      some ⟨round4 (listMin all_prices), round4 (listMax all_prices),
        round4 (mean all_prices)⟩,
      daily_summaries⟩

end Calculate

namespace Verify

/-- Embeds `verify.py: load_prices(model_dir, date_str)` — same logic as
`load_daily_prices`. -/
def load_prices (fs : Store) (date : String) : Option (List ℚ) :=
  match fs date with
  | none => none
  | some rows =>
    let prices := rows.filterMap id
    if prices.isEmpty then none else some prices

/-- Embeds `verify.py: remove_outliers(prices)` — same algorithm with the constant
`OUTLIER_SIGMA` in place of the parameter. -/
def remove_outliers (prices : List ℚ) : List ℚ × Nat :=
  if prices.length < 4 then (prices, 0)
  else
    let sorted_p := sortAsc prices
    let trim_n := trimCount prices.length
    let trimmed := (sorted_p.drop trim_n).take (prices.length - 2 * trim_n)
    let t_mean := mean trimmed
    let var := sampleVariance prices
    if var = 0 then (prices, 0)
    else
      let cleaned := prices.filter (withinThreshold t_mean var OUTLIER_SIGMA)
      (cleaned, prices.length - cleaned.length)

/-- The result of `verify_hash` per date: `none` = cannot verify (missing csv,
missing metadata or no recorded hash), otherwise whether the recorded hash
matches the recomputed one. -/
abbrev HashInfo := String → Option Bool

/-- The `for date_str in dates` loop of `verify`: pooled prices, valid-day
count and the number of hash failures. -/
def verLoop (fs : Store) (hashOk : HashInfo) :
    List String → List ℚ × Nat × Nat
  | [] => ([], 0, 0)
  | d :: ds =>
    let rest := verLoop fs hashOk ds
    let hf := if hashOk d = some false then 1 else 0
    match load_prices fs d with
    | none => (rest.1, rest.2.1, hf + rest.2.2)
    | some raw =>
      if raw.length < MIN_OBSERVATIONS_DAY then (rest.1, rest.2.1, hf + rest.2.2)
      else
        let co := remove_outliers raw
        if co.1.isEmpty then (rest.1, rest.2.1, hf + rest.2.2)
        else (co.1 ++ rest.1, rest.2.1 + 1, hf + rest.2.2)

/-- The four exit paths of `verify`. -/
inductive Outcome
  | MATCH
  | MISMATCH
  | NO_DATA
  | NOT_FOUND
deriving Repr, DecidableEq

/-- What `verify` reports: outcome, the re-derived value (when the pool is
non-empty), the published value it compared against, and the hash-failure
count surfaced as warnings. -/
structure VerifyResult where
  outcome : Outcome
  reproduced : Option ℚ
  published : Option ℚ
  hash_failures : Nat
deriving Repr, DecidableEq

/-- The tail of `verify.py: verify` given the published value it would look
up: empty pool exits first (`NO_DATA`), then a missing published value
(`NOT_FOUND`), then the exact comparison (`MATCH`/`MISMATCH`). -/
def verifyWith (fs : Store) (hashOk : HashInfo) (dates : List String)
    (published : Option ℚ) : VerifyResult :=
  let r := verLoop fs hashOk dates
  let all_prices := r.1
  let hash_failures := r.2.2
  if all_prices.isEmpty then ⟨Outcome.NO_DATA, none, published, hash_failures⟩
  else
    let reproduced := round4 (median all_prices)
    match published with
    | none => ⟨Outcome.NOT_FOUND, some reproduced, none, hash_failures⟩
    | some p =>
      if reproduced = p then ⟨Outcome.MATCH, some reproduced, some p, hash_failures⟩
      else ⟨Outcome.MISMATCH, some reproduced, some p, hash_failures⟩

/-- One row of the published index CSV as read back by `csv.DictReader`:
the `end_date` cell and the remaining cells.  A value cell is `some q` for a
numeric string and `none` for an empty string; a column missing from the file
is absent from `fields`. -/
structure PubRow where
  end_date : String
  fields : List (String × Option ℚ)
deriving Repr, DecidableEq

/-- The inner `for col in [value_col, "index_value", "cri_h100"]` loop:
a falsy column name (`None` or `""`) is skipped; the first column present in
the row returns its cell (`float(val) if val else None`). -/
def tryCols (fields : List (String × Option ℚ)) :
    List (Option String) → Option (Option ℚ)
  | [] => none
  | none :: rest => tryCols fields rest
  | some c :: rest =>
    if c = "" then tryCols fields rest
    else
      match fields.lookup c with
      | some v => some v
      | none => tryCols fields rest

/-- Embeds `verify.py: get_published_value(index_csv, end_date, value_col)`: scan the
rows in file order; on a row whose `end_date` matches, return its value via
the first recognized column, otherwise keep scanning. -/
def get_published_value (rows : List PubRow) (end_date : String)
    (value_col : Option String) : Option ℚ :=
  match rows with
  | [] => none
  | r :: rest =>
    if r.end_date = end_date then
      match tryCols r.fields [value_col, some "index_value", some "cri_h100"] with
      | some v => v
      | none => get_published_value rest end_date value_col
    else get_published_value rest end_date value_col

/-- Embeds `verify.py: verify(end_date, model_id)` with the published series passed
as parsed rows: looks up the published value, then re-derives. -/
def verify (fs : Store) (hashOk : HashInfo) (dates : List String)
    (rows : List PubRow) (end_date : String) : VerifyResult :=
  verifyWith fs hashOk dates (get_published_value rows end_date none)

end Verify


/-! ## Reference definition from the spec (section 4.1) and claim C1 -/

/-- The trimmed mean as worded by the spec: sort ascending, drop the lowest
and highest `max(1, floor(0.10 * n))` values, take the arithmetic mean of the
remainder. -/
def trimmedMeanSpec (l : List ℚ) : ℚ :=
  mean (((sortAsc l).drop (trimCount l.length)).take
    (l.length - 2 * trimCount l.length))

/-- The spec's reference definition of `clean`: fewer than 4 elements or an
exactly-zero sample standard deviation returns the input unchanged with
`removed_count = 0`; otherwise keep the observations whose absolute deviation
from the trimmed mean is at most `sigma` times the sample standard deviation
of the full list. -/
def remove_outliers_spec (prices : List ℚ) (sigma : ℚ) : List ℚ × Nat :=
  if prices.length < 4 ∨ sampleVariance prices = 0 then (prices, 0)
  else
    let kept := prices.filter
      (withinThreshold (trimmedMeanSpec prices) (sampleVariance prices) sigma)
    (kept, prices.length - kept.length)

/-- Helper: the two source copies of the filter agree definitionally. -/
lemma verify_remove_outliers_eq (prices : List ℚ) :
    Verify.remove_outliers prices = Calculate.remove_outliers prices OUTLIER_SIGMA := rfl

/-- C1: for every list and every sigma, `clean`/`remove_outliers` (both the
`calculate.py` and the `verify.py` copy) equals the reference definition from
the spec. -/
theorem c1_remove_outliers_matches_spec (prices : List ℚ) (sigma : ℚ) :
    Calculate.remove_outliers prices sigma = remove_outliers_spec prices sigma ∧
    Verify.remove_outliers prices = remove_outliers_spec prices OUTLIER_SIGMA := by
  constructor
  · simp only [Calculate.remove_outliers, remove_outliers_spec, trimmedMeanSpec]
    by_cases h4 : prices.length < 4
    · simp [h4]
    · by_cases hv : sampleVariance prices = 0 <;> simp [h4, hv]
  · rw [verify_remove_outliers_eq]
    simp only [Calculate.remove_outliers, remove_outliers_spec, trimmedMeanSpec]
    by_cases h4 : prices.length < 4
    · simp [h4]
    · by_cases hv : sampleVariance prices = 0 <;> simp [h4, hv]

/-! ## Claim C3: the concrete spike-day scenario of spec section 8 -/

/-- The concrete day of spec section 8: ten observations of `1` and one
of `100`. -/
def spikeDay : List ℚ := [1, 1, 1, 1, 1, 1, 1, 1, 1, 1, 100]

/-- C3 counterexample: on `[1 x 10, 100]` with the default sigma the cleaned
set is not the full input with `removed_count = 0`; the observation `100`
does not survive the filter. -/
theorem c3_counterexample :
    ¬ (Calculate.remove_outliers spikeDay OUTLIER_SIGMA = (spikeDay, 0)) := by
  norm_num [spikeDay, Calculate.remove_outliers, sortAsc, trimCount, mean,
    sampleVariance, withinThreshold, OUTLIER_SIGMA,
    List.insertionSort, List.orderedInsert, List.filter]

/-- C3 amended: `trim_n = 1` and the trimmed mean over the middle 9 values is
`1`, but the sample variance of the full list is `891` so the threshold is
`2.5 * stdev ≈ 74.6 < 99 = |100 - 1|`: the observation `100` is removed, the
cleaned set is the ten `1`s, and `removed_count = 1`. -/
theorem c3_amended :
    trimCount spikeDay.length = 1 ∧
    mean (((sortAsc spikeDay).drop 1).take 9) = 1 ∧
    sampleVariance spikeDay = 891 ∧
    Calculate.remove_outliers spikeDay OUTLIER_SIGMA = (List.replicate 10 1, 1) := by
  refine ⟨?_, ?_, ?_, ?_⟩ <;>
    norm_num [spikeDay, Calculate.remove_outliers, sortAsc, trimCount, mean,
      sampleVariance, withinThreshold, OUTLIER_SIGMA,
      List.insertionSort, List.orderedInsert, List.filter, List.replicate]

/-! ## Claim C7: order independence of the outlier filter -/

lemma sortAsc_perm (l : List ℚ) : (sortAsc l).Perm l := List.perm_insertionSort _ l

lemma sortAsc_sorted (l : List ℚ) : (sortAsc l).Sorted (fun a b => a ≤ b) :=
  List.sorted_insertionSort _ l

/-- Two permutations of the same multiset of rationals sort to the same
list. -/
lemma sortAsc_eq_of_perm {l₁ l₂ : List ℚ} (h : l₁.Perm l₂) :
    sortAsc l₁ = sortAsc l₂ :=
  List.eq_of_perm_of_sorted ((sortAsc_perm l₁).trans (h.trans (sortAsc_perm l₂).symm))
    (sortAsc_sorted l₁) (sortAsc_sorted l₂)

lemma mean_perm {l₁ l₂ : List ℚ} (h : l₁.Perm l₂) : mean l₁ = mean l₂ := by
  simp [mean, h.sum_eq, h.length_eq]

lemma sampleVariance_perm {l₁ l₂ : List ℚ} (h : l₁.Perm l₂) :
    sampleVariance l₁ = sampleVariance l₂ := by
  simp only [sampleVariance, mean_perm h, h.length_eq,
    (h.map (fun x => (x - mean l₂) ^ 2)).sum_eq]

lemma remove_outliers_perm_aux {l₁ l₂ : List ℚ} (sigma : ℚ) (h : l₁.Perm l₂) :
    (Calculate.remove_outliers l₁ sigma).1.Perm (Calculate.remove_outliers l₂ sigma).1 ∧
    (Calculate.remove_outliers l₁ sigma).2 = (Calculate.remove_outliers l₂ sigma).2 := by
  have hlen : l₁.length = l₂.length := h.length_eq
  have hsort : sortAsc l₁ = sortAsc l₂ := sortAsc_eq_of_perm h
  have hvar : sampleVariance l₁ = sampleVariance l₂ := sampleVariance_perm h
  simp only [Calculate.remove_outliers, hlen, hsort, hvar]
  by_cases h4 : l₂.length < 4
  · simpa [h4] using h
  · by_cases hv : sampleVariance l₂ = 0
    · simpa [h4, hv] using h
    · have hf := h.filter (withinThreshold
        (mean (((sortAsc l₂).drop (trimCount l₂.length)).take
          (l₂.length - 2 * trimCount l₂.length)))
        (sampleVariance l₂) sigma)
      simp only [h4, hv, if_false]
      exact ⟨hf, by rw [hf.length_eq]⟩

/-- C7: the filter is order-independent: permuting the input permutes the
cleaned output (same multiset) and leaves `removed_count` unchanged, for both
source copies of `remove_outliers`. -/
theorem c7_clean_order_independent (l₁ l₂ : List ℚ) (sigma : ℚ) (h : l₁.Perm l₂) :
    (Calculate.remove_outliers l₁ sigma).1.Perm (Calculate.remove_outliers l₂ sigma).1 ∧
    (Calculate.remove_outliers l₁ sigma).2 = (Calculate.remove_outliers l₂ sigma).2 ∧
    (Verify.remove_outliers l₁).1.Perm (Verify.remove_outliers l₂).1 ∧
    (Verify.remove_outliers l₁).2 = (Verify.remove_outliers l₂).2 := by
  refine ⟨(remove_outliers_perm_aux sigma h).1, (remove_outliers_perm_aux sigma h).2, ?_, ?_⟩
  · rw [verify_remove_outliers_eq, verify_remove_outliers_eq]
    exact (remove_outliers_perm_aux OUTLIER_SIGMA h).1
  · rw [verify_remove_outliers_eq, verify_remove_outliers_eq]
    exact (remove_outliers_perm_aux OUTLIER_SIGMA h).2

/-- C7 witness: a concrete transposition of a five-observation day. -/
theorem c7_witness :
    ([(1:ℚ), 2, 3, 4, 100].Perm [2, 1, 3, 4, 100]) ∧
    (Calculate.remove_outliers [(1:ℚ), 2, 3, 4, 100] OUTLIER_SIGMA).1.Perm
      (Calculate.remove_outliers [(2:ℚ), 1, 3, 4, 100] OUTLIER_SIGMA).1 ∧
    (Calculate.remove_outliers [(1:ℚ), 2, 3, 4, 100] OUTLIER_SIGMA).2 =
      (Calculate.remove_outliers [(2:ℚ), 1, 3, 4, 100] OUTLIER_SIGMA).2 := by
  have hp : [(1:ℚ), 2, 3, 4, 100].Perm [2, 1, 3, 4, 100] :=
    List.Perm.swap 2 1 [3, 4, 100]
  exact ⟨hp, (c7_clean_order_independent _ _ OUTLIER_SIGMA hp).1,
    (c7_clean_order_independent _ _ OUTLIER_SIGMA hp).2.1⟩

/-! ## Claim C9: row skipping and the empty-file-as-absent rule -/

/-- C9: loading a day's prices skips rows whose price cell is missing or
unparseable; a file yielding zero parsed rows is treated exactly like an
absent file (the `none` marker), so the day's status is `missing`;
`verify.py`'s `load_prices` is the same function. -/
theorem c9_load_skips_rows_and_empty_is_missing (fs : Store) (date : String) :
    (fs date = none → Calculate.load_daily_prices fs date = none) ∧
    (∀ rows, fs date = some rows → rows.filterMap id = [] →
      Calculate.load_daily_prices fs date = none) ∧
    (∀ rows, fs date = some rows → rows.filterMap id ≠ [] →
      Calculate.load_daily_prices fs date = some (rows.filterMap id)) ∧
    (Calculate.load_daily_prices fs date = none →
      (Calculate.processDay fs date).1.status = "missing") ∧
    Verify.load_prices fs date = Calculate.load_daily_prices fs date := by
  refine ⟨?_, ?_, ?_, ?_, rfl⟩
  · intro h; simp [Calculate.load_daily_prices, h]
  · intro rows h he; simp [Calculate.load_daily_prices, h, he]
  · intro rows h hne; simp [Calculate.load_daily_prices, h, hne]
  · intro h; simp [Calculate.processDay, h]

/-- A store with one file of partly-unparseable rows and one file whose every
row fails to parse. -/
def raggedStore : Store := fun d =>
  if d = "good" then some [none, some 2, none, some 3]
  else if d = "allbad" then some [none, none] else none

/-- C9 witness: concrete evaluations of the loader on `raggedStore`. -/
theorem c9_witness :
    Calculate.load_daily_prices raggedStore "good" = some [2, 3] ∧
    Calculate.load_daily_prices raggedStore "allbad" = none ∧
    (Calculate.processDay raggedStore "allbad").1.status = "missing" := by
  have h1 := (c9_load_skips_rows_and_empty_is_missing raggedStore "good").2.2.1
    [none, some 2, none, some 3] (by simp [raggedStore]) (by simp)
  have h2 := (c9_load_skips_rows_and_empty_is_missing raggedStore "allbad").2.1
    [none, none] (by simp [raggedStore]) (by simp)
  have h3 := (c9_load_skips_rows_and_empty_is_missing raggedStore "allbad").2.2.2.1 h2
  exact ⟨by simpa using h1, h2, h3⟩

/-! ## Claim C10: duplicate rows in the published series -/

/-- C10: the Verifier's published value is taken from the first row in file
order whose `end_date` matches and which carries a recognized value column;
later duplicate rows are ignored; a matching row without a recognized column
is skipped; an empty value cell on the deciding row yields no published value,
and with no published value a reproducible window reports `NOT_FOUND`. -/
theorem c10_first_matching_row_wins (r : Verify.PubRow) (rest : List Verify.PubRow)
    (d : String) (vc : Option String) :
    (r.end_date = d → ∀ v,
      Verify.tryCols r.fields [vc, some "index_value", some "cri_h100"] = some v →
      Verify.get_published_value (r :: rest) d vc = v) ∧
    (r.end_date = d →
      Verify.tryCols r.fields [vc, some "index_value", some "cri_h100"] = none →
      Verify.get_published_value (r :: rest) d vc =
        Verify.get_published_value rest d vc) ∧
    (r.end_date ≠ d →
      Verify.get_published_value (r :: rest) d vc =
        Verify.get_published_value rest d vc) ∧
    (∀ fs hashOk dates, (Verify.verLoop fs hashOk dates).1 ≠ [] →
      (Verify.verifyWith fs hashOk dates none).outcome = Verify.Outcome.NOT_FOUND) := by
  refine ⟨?_, ?_, ?_, ?_⟩
  · intro hd v hv; simp [Verify.get_published_value, hd, hv]
  · intro hd hv; simp [Verify.get_published_value, hd, hv]
  · intro hd; simp [Verify.get_published_value, hd]
  · intro fs hashOk dates hne
    simp [Verify.verifyWith, hne]

/-- A published series holding two rows for end date 2026-03-01 (the
duplicate-append case) and one empty-valued row for 2026-03-02. -/
def dupSeries : List Verify.PubRow :=
  [⟨"2026-03-01", [("index_value", some (9/10))]⟩,
   ⟨"2026-03-01", [("index_value", some (8/10))]⟩,
   ⟨"2026-03-02", [("index_value", none)]⟩]

/-- C10 witness: the first duplicate row's value wins, and an empty value cell
on the first matching row yields no published value. -/
theorem c10_witness :
    Verify.get_published_value dupSeries "2026-03-01" none = some (9/10) ∧
    Verify.get_published_value dupSeries "2026-03-02" none = none := by
  constructor
  · exact (c10_first_matching_row_wins
      ⟨"2026-03-01", [("index_value", some (9/10))]⟩
      [⟨"2026-03-01", [("index_value", some (8/10))]⟩,
       ⟨"2026-03-02", [("index_value", none)]⟩] "2026-03-01" none).1 rfl
      (some (9/10)) (by simp [Verify.tryCols])
  · have s1 := (c10_first_matching_row_wins
      ⟨"2026-03-01", [("index_value", some (9/10))]⟩
      [⟨"2026-03-01", [("index_value", some (8/10))]⟩,
       ⟨"2026-03-02", [("index_value", none)]⟩] "2026-03-02" none).2.2.1 (by simp)
    have s2 := (c10_first_matching_row_wins
      ⟨"2026-03-01", [("index_value", some (8/10))]⟩
      [⟨"2026-03-02", [("index_value", none)]⟩] "2026-03-02" none).2.2.1 (by simp)
    have s3 := (c10_first_matching_row_wins
      ⟨"2026-03-02", [("index_value", none)]⟩ [] "2026-03-02" none).1 rfl
      none (by simp [Verify.tryCols])
    exact s1.trans (s2.trans s3)

/-! ## Claim C8: the hash check never affects the outcome -/

lemma verLoop_pool_valid_hash_indep (fs : Store) (h₁ h₂ : Verify.HashInfo) :
    ∀ dates, (Verify.verLoop fs h₁ dates).1 = (Verify.verLoop fs h₂ dates).1 ∧
      (Verify.verLoop fs h₁ dates).2.1 = (Verify.verLoop fs h₂ dates).2.1
  | [] => ⟨rfl, rfl⟩
  | d :: ds => by
    have ih := verLoop_pool_valid_hash_indep fs h₁ h₂ ds
    simp only [Verify.verLoop]
    cases Verify.load_prices fs d with
    | none => simpa using ih
    | some raw =>
      by_cases hn : raw.length < MIN_OBSERVATIONS_DAY
      · simp [hn, ih.1, ih.2]
      · by_cases hc : (Verify.remove_outliers raw).1.isEmpty
        · simp [hn, hc, ih.1, ih.2]
        · simp [hn, hc, ih.1, ih.2]

lemma verLoop_hash_failures (fs : Store) (h : Verify.HashInfo) :
    ∀ dates, (Verify.verLoop fs h dates).2.2 =
      dates.countP (fun d => decide (h d = some false))
  | [] => rfl
  | d :: ds => by
    have ih := verLoop_hash_failures fs h ds
    simp only [Verify.verLoop, List.countP_cons]
    by_cases hd : h d = some false
    · cases Verify.load_prices fs d with
      | none => simp [hd, ih, Nat.add_comm]
      | some raw =>
        by_cases hn : raw.length < MIN_OBSERVATIONS_DAY
        · simp [hd, hn, ih, Nat.add_comm]
        · by_cases hc : (Verify.remove_outliers raw).1.isEmpty <;>
            simp [hd, hn, hc, ih, Nat.add_comm]
    · cases Verify.load_prices fs d with
      | none => simp [hd, ih]
      | some raw =>
        by_cases hn : raw.length < MIN_OBSERVATIONS_DAY
        · simp [hd, hn, ih]
        · by_cases hc : (Verify.remove_outliers raw).1.isEmpty <;>
            simp [hd, hn, hc, ih]

/-- C8: the per-day content-hash integrity check is informational only — for
the same observation data and published value, any two hash configurations
(pass, mismatch or missing metadata per day, in any combination) give the same
verification outcome and the same reproduced value; hash mismatches only
change the warning count, which counts exactly the days whose recorded hash
disagrees. -/
theorem c8_hash_check_informational (fs : Store) (dates : List String)
    (published : Option ℚ) (h₁ h₂ : Verify.HashInfo) :
    (Verify.verifyWith fs h₁ dates published).outcome =
      (Verify.verifyWith fs h₂ dates published).outcome ∧
    (Verify.verifyWith fs h₁ dates published).reproduced =
      (Verify.verifyWith fs h₂ dates published).reproduced ∧
    (Verify.verifyWith fs h₁ dates published).hash_failures =
      dates.countP (fun d => decide (h₁ d = some false)) := by
  obtain ⟨hp, hv⟩ := verLoop_pool_valid_hash_indep fs h₁ h₂ dates
  have hh : (Verify.verifyWith fs h₁ dates published).hash_failures =
      (Verify.verLoop fs h₁ dates).2.2 := by
    simp only [Verify.verifyWith]
    by_cases he : (Verify.verLoop fs h₁ dates).1.isEmpty
    · simp [he]
    · cases published with
      | none => simp [he]
      | some p =>
        by_cases hm : round4 (median (Verify.verLoop fs h₁ dates).1) = p <;>
          simp [he, hm]
  refine ⟨?_, ?_, hh.trans (verLoop_hash_failures fs h₁ dates)⟩ <;>
  · simp only [Verify.verifyWith, hp]
    by_cases he : (Verify.verLoop fs h₂ dates).1.isEmpty
    · simp [he]
    · cases published with
      | none => simp [he]
      | some p =>
        by_cases hm : round4 (median (Verify.verLoop fs h₂ dates).1) = p <;>
          simp [he, hm]

/-! ## Claims C5 and C6: the calculated result for non-empty / empty pools -/

/-- Helper: a string ending in a non-empty literal is non-empty. -/
lemma append_ne_empty_of_right (a b : String) (hb : b.length ≠ 0) :
    (a ++ b) ≠ "" := by
  intro h
  have h2 := congrArg String.length h
  rw [String.length_append, String.length_empty] at h2
  omega

/-- C5: when the pooled set is non-empty, `calculate` returns
`index_value = round(median(pooled), 4)` (non-null), reports the aggregation's
valid-day count, `low_confidence` holds exactly when that count is below
`MIN_VALID_DAYS`, and a non-empty human-readable reason string is present
exactly when `low_confidence` is true. -/
theorem c5_nonempty_pool_result (fs : Store) (end_date : String)
    (dates : List String) (nm : String)
    (hne : (Calculate.calcDays fs dates).2.1 ≠ []) :
    (Calculate.calculate fs end_date dates nm).index_value =
      some (round4 (median (Calculate.calcDays fs dates).2.1)) ∧
    (Calculate.calculate fs end_date dates nm).valid_days =
      (Calculate.calcDays fs dates).2.2 ∧
    ((Calculate.calculate fs end_date dates nm).low_confidence = true ↔
      (Calculate.calculate fs end_date dates nm).valid_days < MIN_VALID_DAYS) ∧
    ((Calculate.calculate fs end_date dates nm).low_confidence = true ↔
      ∃ s : String,
        (Calculate.calculate fs end_date dates nm).low_confidence_reason = some s ∧
        s ≠ "") := by
  by_cases hlc : (Calculate.calcDays fs dates).2.2 < MIN_VALID_DAYS
  · refine ⟨by simp [Calculate.calculate, hne], by simp [Calculate.calculate, hne],
      by simp [Calculate.calculate, hne, hlc], ?_⟩
    simp [Calculate.calculate, hne, hlc]
    exact append_ne_empty_of_right _ "-day window"
      (by rw [show ("-day window").length = 11 from rfl]; omega)
  · exact ⟨by simp [Calculate.calculate, hne], by simp [Calculate.calculate, hne],
      by simp [Calculate.calculate, hne, hlc], by simp [Calculate.calculate, hne, hlc]⟩

/-- A store holding a single day of ten observations of `1`. -/
def oneGoodDayStore : Store := fun d =>
  if d = "d1" then
    some [some 1, some 1, some 1, some 1, some 1, some 1, some 1, some 1, some 1,
      some 1]
  else none

/-- C5 witness: on a one-day window with ten identical observations the pool
is non-empty and the published value is the rounded pooled median. -/
theorem c5_witness :
    (Calculate.calcDays oneGoodDayStore ["d1"]).2.1 ≠ [] ∧
    (Calculate.calculate oneGoodDayStore "d1" ["d1"] "CRI-H100").index_value =
      some (round4 (median (Calculate.calcDays oneGoodDayStore ["d1"]).2.1)) ∧
    ((Calculate.calculate oneGoodDayStore "d1" ["d1"] "CRI-H100").low_confidence = true ↔
      (Calculate.calculate oneGoodDayStore "d1" ["d1"] "CRI-H100").valid_days <
        MIN_VALID_DAYS) := by
  have hload : Calculate.load_daily_prices oneGoodDayStore "d1" =
      some [1, 1, 1, 1, 1, 1, 1, 1, 1, 1] := by
    simp [oneGoodDayStore, Calculate.load_daily_prices]
  have hro : Calculate.remove_outliers [1, 1, 1, 1, 1, 1, 1, 1, 1, (1:ℚ)] OUTLIER_SIGMA =
      ([1, 1, 1, 1, 1, 1, 1, 1, 1, 1], 0) := by
    norm_num [Calculate.remove_outliers, sampleVariance, mean]
  have hpd : (Calculate.processDay oneGoodDayStore "d1").2 =
      [1, 1, 1, 1, 1, 1, 1, 1, 1, 1] := by
    simp [Calculate.processDay, hload, hro, MIN_OBSERVATIONS_DAY]
  have hne : (Calculate.calcDays oneGoodDayStore ["d1"]).2.1 ≠ [] := by
    simp [Calculate.calcDays, hpd]
  exact ⟨hne, (c5_nonempty_pool_result oneGoodDayStore "d1" ["d1"] "CRI-H100" hne).1,
    (c5_nonempty_pool_result oneGoodDayStore "d1" ["d1"] "CRI-H100" hne).2.2.1⟩

/-- Helper for C6: a window in which every queried day is absent pools no
observations. -/
lemma calcDays_pool_nil_of_missing (fs : Store) :
    ∀ dates : List String, (∀ d ∈ dates, fs d = none) →
      (Calculate.calcDays fs dates).2.1 = []
  | [], _ => rfl
  | d :: ds, h => by
    have hd : fs d = none := h d (List.mem_cons_self d ds)
    have ih := calcDays_pool_nil_of_missing fs ds
      (fun x hx => h x (List.mem_cons_of_mem d hx))
    simp [Calculate.calcDays, Calculate.processDay, Calculate.load_daily_prices,
      hd, ih]

/-- C6: an empty pooled set yields a null `index_value`, `low_confidence =
true` and reason exactly "no valid observations in window"; the null value is
the sole non-publishable case (`index_value` is null iff the pool is empty);
and when every day of the window is missing the pool is indeed empty. -/
theorem c6_empty_pool_result (fs : Store) (end_date : String)
    (dates : List String) (nm : String) :
    ((Calculate.calcDays fs dates).2.1 = [] →
      (Calculate.calculate fs end_date dates nm).index_value = none ∧
      (Calculate.calculate fs end_date dates nm).low_confidence = true ∧
      (Calculate.calculate fs end_date dates nm).low_confidence_reason =
        some ("no valid observations in window")) ∧
    ((Calculate.calculate fs end_date dates nm).index_value = none ↔
      (Calculate.calcDays fs dates).2.1 = []) ∧
    ((∀ d ∈ dates, fs d = none) → (Calculate.calcDays fs dates).2.1 = []) := by
  refine ⟨?_, ⟨?_, ?_⟩, calcDays_pool_nil_of_missing fs dates⟩
  · intro he
    exact ⟨by simp [Calculate.calculate, he], by simp [Calculate.calculate, he],
      by simp [Calculate.calculate, he]⟩
  · intro hi
    by_cases he : (Calculate.calcDays fs dates).2.1 = []
    · exact he
    · exfalso; simp [Calculate.calculate, he] at hi
  · intro he; simp [Calculate.calculate, he]

/-- The store with no data at all. -/
def emptyStore : Store := fun _ => none

/-- C6 witness: a two-day window with every day missing. -/
theorem c6_witness :
    (Calculate.calcDays emptyStore ["a", "b"]).2.1 = [] ∧
    (Calculate.calculate emptyStore "b" ["a", "b"] "CRI-H100").index_value = none ∧
    (Calculate.calculate emptyStore "b" ["a", "b"] "CRI-H100").low_confidence_reason =
      some ("no valid observations in window") := by
  have hm : ∀ d ∈ (["a", "b"] : List String), emptyStore d = none := by
    intro d _; rfl
  have he := (c6_empty_pool_result emptyStore "b" ["a", "b"] "CRI-H100").2.2 hm
  exact ⟨he, ((c6_empty_pool_result emptyStore "b" ["a", "b"] "CRI-H100").1 he).1,
    ((c6_empty_pool_result emptyStore "b" ["a", "b"] "CRI-H100").1 he).2.2⟩

/-! ## Claim C2: the Verifier round-trip -/

/-- Helper: the Verifier's per-day loop pools exactly the observations the
calculator pools — the two loops run the same load / admission / filter path,
and the hash check never touches the pool. -/
lemma verLoop_pool_eq_calcDays_pool (fs : Store) (hashOk : Verify.HashInfo) :
    ∀ dates, (Verify.verLoop fs hashOk dates).1 = (Calculate.calcDays fs dates).2.1
  | [] => rfl
  | d :: ds => by
    have ih := verLoop_pool_eq_calcDays_pool fs hashOk ds
    have hl : Verify.load_prices fs d = Calculate.load_daily_prices fs d := rfl
    simp only [Verify.verLoop, Calculate.calcDays, Calculate.processDay, hl]
    cases hld : Calculate.load_daily_prices fs d with
    | none => simpa using ih
    | some raw =>
      by_cases hn : raw.length < MIN_OBSERVATIONS_DAY
      · simp [hn, ih]
      · by_cases hc : (Calculate.remove_outliers raw OUTLIER_SIGMA).1.isEmpty
        · simp [hn, verify_remove_outliers_eq, hc, ih]
        · simp [hn, verify_remove_outliers_eq, hc, ih]

/-- C2: with the store unchanged between the two calls, verifying the value
that `calculate` produced reports MATCH whenever that value is non-null: the
value re-derived by the Verifier's aggregation path is
`round(median(pooled), 4)`, exactly the calculator's `index_value`. -/
theorem c2_verifier_round_trip (fs : Store) (hashOk : Verify.HashInfo)
    (end_date : String) (dates : List String) (nm : String) (v : ℚ)
    (hv : (Calculate.calculate fs end_date dates nm).index_value = some v) :
    (Verify.verifyWith fs hashOk dates (some v)).outcome = Verify.Outcome.MATCH ∧
    (Verify.verifyWith fs hashOk dates (some v)).reproduced = some v := by
  by_cases he : (Calculate.calcDays fs dates).2.1 = []
  · exfalso; simp [Calculate.calculate, he] at hv
  · have hvv : v = round4 (median (Calculate.calcDays fs dates).2.1) := by
      have h2 := hv
      simp [Calculate.calculate, he] at h2
      exact h2.symm
    have hp := verLoop_pool_eq_calcDays_pool fs hashOk dates
    constructor <;>
    · simp only [Verify.verifyWith, hp]
      simp [he, hvv]

/-- C2 witness: the one-good-day store publishes `1` and the Verifier
reproduces and matches it. -/
theorem c2_witness :
    (Calculate.calculate oneGoodDayStore "d1" ["d1"] "CRI-H100").index_value =
      some 1 ∧
    (Verify.verifyWith oneGoodDayStore (fun _ => none) ["d1"] (some 1)).outcome =
      Verify.Outcome.MATCH := by
  have hload : Calculate.load_daily_prices oneGoodDayStore "d1" =
      some [1, 1, 1, 1, 1, 1, 1, 1, 1, 1] := by
    simp [oneGoodDayStore, Calculate.load_daily_prices]
  have hro : Calculate.remove_outliers [1, 1, 1, 1, 1, 1, 1, 1, 1, (1:ℚ)] OUTLIER_SIGMA =
      ([1, 1, 1, 1, 1, 1, 1, 1, 1, 1], 0) := by
    norm_num [Calculate.remove_outliers, sampleVariance, mean]
  have hpd : (Calculate.processDay oneGoodDayStore "d1").2 =
      [1, 1, 1, 1, 1, 1, 1, 1, 1, 1] := by
    simp [Calculate.processDay, hload, hro, MIN_OBSERVATIONS_DAY]
  have hpool : (Calculate.calcDays oneGoodDayStore ["d1"]).2.1 =
      [1, 1, 1, 1, 1, 1, 1, 1, 1, 1] := by
    simp [Calculate.calcDays, hpd]
  have hmed : round4 (median [1, 1, 1, 1, 1, 1, 1, 1, 1, (1:ℚ)]) = 1 := by
    norm_num [median, sortAsc, List.insertionSort, List.orderedInsert, round4,
      roundHalfEven]
  have hv : (Calculate.calculate oneGoodDayStore "d1" ["d1"] "CRI-H100").index_value =
      some 1 := by
    simp [Calculate.calculate, hpool, hmed]
  exact ⟨hv, (c2_verifier_round_trip oneGoodDayStore (fun _ => none) "d1" ["d1"]
    "CRI-H100" 1 hv).1⟩

/-! ## Claim C4: the per-day statuses of the aggregation window

The key fact is that the `empty_after_outlier_removal` branch of `calculate`
is unreachable: for an admitted day (at least `MIN_OBSERVATIONS_DAY = 10 ≥ 4`
observations) some member of the trimmed segment always lies within
`2.5` sample standard deviations of the trimmed mean, so the filter never
removes every observation.  The argument: the trimmed mean minimizes the
trimmed sum of squared deviations, that sum is bounded by the full sum of
squared deviations `(n-1)·variance`, and the trimmed segment has at least
`4(n-1)/25` elements, so its smallest squared deviation is at most
`(25/4)·variance`. -/

/-- Recentering a sum of squared deviations. -/
lemma sum_sq_shift (l : List ℚ) (a b : ℚ) :
    (l.map (fun t => (t - a) ^ 2)).sum =
      (l.map (fun t => (t - b) ^ 2)).sum + 2 * (b - a) * (l.sum - (l.length : ℚ) * b) +
        (l.length : ℚ) * (b - a) ^ 2 := by
  induction l with
  | nil => simp
  | cons x xs ih =>
    simp only [List.map_cons, List.sum_cons, List.length_cons, ih]
    push_cast
    ring

/-- A non-empty list of rationals has a member at most its average. -/
lemma exists_mul_length_le_sum :
    ∀ l : List ℚ, l ≠ [] → ∃ x ∈ l, (l.length : ℚ) * x ≤ l.sum
  | [], h => absurd rfl h
  | [a], _ => ⟨a, List.mem_singleton_self a, by simp⟩
  | a :: b :: t, _ => by
    obtain ⟨x, hx, hxs⟩ := exists_mul_length_le_sum (b :: t) (List.cons_ne_nil b t)
    have hlen : (0:ℚ) ≤ ((b :: t).length : ℚ) := by positivity
    rcases le_or_lt a x with hab | hab
    · refine ⟨a, List.mem_cons_self a (b :: t), ?_⟩
      have h1 : ((b :: t).length : ℚ) * a ≤ ((b :: t).length : ℚ) * x :=
        mul_le_mul_of_nonneg_left hab hlen
      simp only [List.length_cons, List.sum_cons] at hxs h1 ⊢
      push_cast at hxs h1 ⊢
      nlinarith [h1, hxs]
    · refine ⟨x, List.mem_cons_of_mem a hx, ?_⟩
      simp only [List.length_cons, List.sum_cons] at hxs ⊢
      push_cast at hxs ⊢
      nlinarith [hxs, hab.le]

/-- Size bounds on the trimmed segment: it keeps at least two elements, and
`4(n-1) ≤ 25·|trimmed|`. -/
lemma trim_bounds {n : Nat} (h4 : 4 ≤ n) :
    2 * trimCount n + 2 ≤ n ∧ 4 * (n - 1) ≤ 25 * (n - 2 * trimCount n) := by
  rcases le_or_lt (n / 10) 1 with h | h
  · rw [trimCount, Nat.max_eq_left h]
    omega
  · rw [trimCount, Nat.max_eq_right h.le]
    omega

/-- For at least four observations the outlier filter at the default sigma
never empties the list: some trimmed observation always survives. -/
lemma remove_outliers_ne_nil (prices : List ℚ) (h4 : 4 ≤ prices.length) :
    (Calculate.remove_outliers prices OUTLIER_SIGMA).1 ≠ [] := by
  have hnp : prices ≠ [] := by
    intro h; rw [h] at h4; simp at h4
  simp only [Calculate.remove_outliers]
  rw [if_neg (by omega)]
  by_cases hv : sampleVariance prices = 0
  · simp [hv, hnp]
  · rw [if_neg hv]
    obtain ⟨hb1, hb2⟩ := trim_bounds h4
    set T := ((sortAsc prices).drop (trimCount prices.length)).take
      (prices.length - 2 * trimCount prices.length) with hT
    set m := mean T with hm
    set v := sampleVariance prices with hvdef
    show prices.filter (withinThreshold m v OUTLIER_SIGMA) ≠ []
    have hsl : (sortAsc prices).length = prices.length :=
      (sortAsc_perm prices).length_eq
    have hTlen : T.length = prices.length - 2 * trimCount prices.length := by
      rw [hT, List.length_take, List.length_drop, hsl]
      omega
    have hTne : T ≠ [] := by
      intro h
      rw [h] at hTlen
      simp at hTlen
      omega
    have hk0 : (0:ℚ) < ((prices.length - 2 * trimCount prices.length : ℕ) : ℚ) := by
      have h2 : 2 ≤ prices.length - 2 * trimCount prices.length := by omega
      exact_mod_cast Nat.lt_of_lt_of_le (by omega) h2
    obtain ⟨y, hy, hys⟩ := exists_mul_length_le_sum
      (T.map (fun t => (t - m) ^ 2)) (by simpa using hTne)
    obtain ⟨t, htT, hty⟩ := List.mem_map.mp hy
    rw [List.length_map, hTlen] at hys
    rw [← hty] at hys
    have hTlq : ((T.length : ℚ)) ≠ 0 := by
      rw [hTlen]; exact ne_of_gt hk0
    have hTz : T.sum - (T.length : ℚ) * m = 0 := by
      rw [hm, mean, mul_div_cancel₀ _ hTlq]
      ring
    have hshift := sum_sq_shift T (mean prices) m
    rw [hTz] at hshift
    have hB : (T.map (fun t => (t - m) ^ 2)).sum ≤
        (T.map (fun t => (t - mean prices) ^ 2)).sum := by
      have hln : (0:ℚ) ≤ (T.length : ℚ) := by positivity
      nlinarith [sq_nonneg (m - mean prices), hshift, hln]
    have hTsub : T.Sublist (sortAsc prices) :=
      (List.take_sublist _ _).trans (List.drop_sublist _ _)
    have hC : (T.map (fun t => (t - mean prices) ^ 2)).sum ≤
        (prices.map (fun t => (t - mean prices) ^ 2)).sum := by
      have h1 : (T.map (fun t => (t - mean prices) ^ 2)).sum ≤
          ((sortAsc prices).map (fun t => (t - mean prices) ^ 2)).sum := by
        refine List.Sublist.sum_le_sum (hTsub.map _) ?_
        intro a ha
        obtain ⟨x, _, hxa⟩ := List.mem_map.mp ha
        rw [← hxa]; positivity
      have h2 : ((sortAsc prices).map (fun t => (t - mean prices) ^ 2)).sum =
          (prices.map (fun t => (t - mean prices) ^ 2)).sum :=
        ((sortAsc_perm prices).map _).sum_eq
      rw [h2] at h1; exact h1
    have hn1 : (0:ℚ) < (prices.length : ℚ) - 1 := by
      have : (4:ℚ) ≤ (prices.length : ℚ) := by exact_mod_cast h4
      linarith
    have hSS : (prices.map (fun t => (t - mean prices) ^ 2)).sum =
        ((prices.length : ℚ) - 1) * v := by
      rw [hvdef, sampleVariance, mul_div_cancel₀ _ (ne_of_gt hn1)]
    have hSSnn : 0 ≤ (prices.map (fun t => (t - mean prices) ^ 2)).sum := by
      refine List.sum_nonneg ?_
      intro a ha
      obtain ⟨x, _, hxa⟩ := List.mem_map.mp ha
      rw [← hxa]; positivity
    have hvnn : 0 ≤ v := by nlinarith [hSS, hSSnn, hn1]
    have hmain : ((prices.length - 2 * trimCount prices.length : ℕ) : ℚ) * (t - m) ^ 2 ≤
        ((prices.length : ℚ) - 1) * v := by
      calc ((prices.length - 2 * trimCount prices.length : ℕ) : ℚ) * (t - m) ^ 2 ≤
          (T.map (fun t => (t - m) ^ 2)).sum := hys
        _ ≤ (T.map (fun t => (t - mean prices) ^ 2)).sum := hB
        _ ≤ (prices.map (fun t => (t - mean prices) ^ 2)).sum := hC
        _ = ((prices.length : ℚ) - 1) * v := hSS
    have h1n : 1 ≤ prices.length := by omega
    have hb2q : 4 * ((prices.length : ℚ) - 1) ≤
        25 * ((prices.length - 2 * trimCount prices.length : ℕ) : ℚ) := by
      have hc : ((4 * (prices.length - 1) : ℕ) : ℚ) ≤
          ((25 * (prices.length - 2 * trimCount prices.length) : ℕ) : ℚ) :=
        Nat.cast_le.mpr hb2
      rw [Nat.cast_mul, Nat.cast_mul, Nat.cast_sub h1n] at hc
      simpa using hc
    have hfinal : (t - m) ^ 2 ≤ OUTLIER_SIGMA ^ 2 * v := by
      rw [OUTLIER_SIGMA]
      nlinarith [hmain, hb2q, hk0, hvnn, sq_nonneg (t - m)]
    have htp : t ∈ prices :=
      (sortAsc_perm prices).mem_iff.mp (hTsub.subset htT)
    have hkeep : withinThreshold m v OUTLIER_SIGMA t = true := by
      simp only [withinThreshold, decide_eq_true_eq]
      exact ⟨by rw [OUTLIER_SIGMA]; norm_num, hfinal⟩
    exact List.ne_nil_of_mem (List.mem_filter.mpr ⟨htp, hkeep⟩)

/-- Every branch of the daily loop tags its summary with the processed
date. -/
lemma processDay_date (fs : Store) (d : String) :
    (Calculate.processDay fs d).1.date = d := by
  cases hld : Calculate.load_daily_prices fs d with
  | none => simp [Calculate.processDay, hld]
  | some raw =>
    simp only [Calculate.processDay, hld]
    split_ifs <;> rfl

/-- The aggregation records exactly one summary per window date, oldest
first, never halting on absent or failing days. -/
lemma calcDays_dates (fs : Store) :
    ∀ dates : List String,
      (Calculate.calcDays fs dates).1.map (fun s => s.date) = dates
  | [] => rfl
  | d :: ds => by
    simp [Calculate.calcDays, processDay_date, calcDays_dates fs ds]

/-- An admitted day (present, at least `MIN_OBSERVATIONS_DAY` observations)
is always `included`: by `remove_outliers_ne_nil` the filter cannot empty
it. -/
lemma processDay_admitted (fs : Store) (d : String) (raw : List ℚ)
    (h : Calculate.load_daily_prices fs d = some raw)
    (hn : ¬ raw.length < MIN_OBSERVATIONS_DAY) :
    (Calculate.processDay fs d).1.status = "included" ∧
    (Calculate.processDay fs d).2 = (Calculate.remove_outliers raw OUTLIER_SIGMA).1 := by
  have hmo : MIN_OBSERVATIONS_DAY = 10 := rfl
  have hne : (Calculate.remove_outliers raw OUTLIER_SIGMA).1 ≠ [] :=
    remove_outliers_ne_nil raw (by omega)
  constructor <;> simp [Calculate.processDay, h, hn, hne]

/-- C4: every window date, processed oldest first, records exactly one daily
summary; its status is one of the four spec statuses — `missing` when the
day's observation set is absent, `low_confidence` when present but thin,
`included` otherwise, the `empty_after_filter` state holding (vacuously)
whenever the filter empties an admitted day, which in fact never happens —
and a day in any non-included state contributes nothing to the pooled
observations; aggregation never halts on such days. -/
theorem c4_daily_statuses (fs : Store) (dates : List String) :
    (Calculate.calcDays fs dates).1.map (fun s => s.date) = dates ∧
    ∀ d : String,
      ((Calculate.processDay fs d).1.status = "missing" ∨
        (Calculate.processDay fs d).1.status = "low_confidence" ∨
        (Calculate.processDay fs d).1.status = "empty_after_filter" ∨
        (Calculate.processDay fs d).1.status = "included") ∧
      (Calculate.load_daily_prices fs d = none →
        (Calculate.processDay fs d).1.status = "missing" ∧
        (Calculate.processDay fs d).2 = []) ∧
      (∀ raw, Calculate.load_daily_prices fs d = some raw →
        raw.length < MIN_OBSERVATIONS_DAY →
        (Calculate.processDay fs d).1.status = "low_confidence" ∧
        (Calculate.processDay fs d).2 = []) ∧
      (∀ raw, Calculate.load_daily_prices fs d = some raw →
        MIN_OBSERVATIONS_DAY ≤ raw.length →
        (Calculate.remove_outliers raw OUTLIER_SIGMA).1 = [] →
        (Calculate.processDay fs d).1.status = "empty_after_filter") ∧
      (∀ raw, Calculate.load_daily_prices fs d = some raw →
        MIN_OBSERVATIONS_DAY ≤ raw.length →
        (Calculate.processDay fs d).1.status = "included" ∧
        (Calculate.processDay fs d).2 =
          (Calculate.remove_outliers raw OUTLIER_SIGMA).1) := by
  refine ⟨calcDays_dates fs dates, ?_⟩
  intro d
  have hmo : MIN_OBSERVATIONS_DAY = 10 := rfl
  refine ⟨?_, ?_, ?_, ?_, ?_⟩
  · cases hld : Calculate.load_daily_prices fs d with
    | none => left; simp [Calculate.processDay, hld]
    | some raw =>
      by_cases hn : raw.length < MIN_OBSERVATIONS_DAY
      · right; left; simp [Calculate.processDay, hld, hn]
      · right; right; right; exact (processDay_admitted fs d raw hld hn).1
  · intro h; constructor <;> simp [Calculate.processDay, h]
  · intro raw h hn; constructor <;> simp [Calculate.processDay, h, hn]
  · intro raw h hn hemp
    exact absurd hemp (remove_outliers_ne_nil raw (by omega))
  · intro raw h hn
    exact processDay_admitted fs d raw h (by omega)

/-- C4 witness: on the one-good-day store an absent date records `missing`,
the admitted date records `included`, and the two-day window reports one
summary per date in order. -/
theorem c4_witness :
    (Calculate.processDay oneGoodDayStore "nope").1.status = "missing" ∧
    (Calculate.processDay oneGoodDayStore "d1").1.status = "included" ∧
    (Calculate.calcDays oneGoodDayStore ["nope", "d1"]).1.map (fun s => s.date) =
      ["nope", "d1"] := by
  have hmiss : Calculate.load_daily_prices oneGoodDayStore "nope" = none := by
    simp [oneGoodDayStore, Calculate.load_daily_prices]
  have hload : Calculate.load_daily_prices oneGoodDayStore "d1" =
      some [1, 1, 1, 1, 1, 1, 1, 1, 1, 1] := by
    simp [oneGoodDayStore, Calculate.load_daily_prices]
  refine ⟨(((c4_daily_statuses oneGoodDayStore ["nope", "d1"]).2 "nope").2.1 hmiss).1,
    (((c4_daily_statuses oneGoodDayStore ["nope", "d1"]).2 "d1").2.2.2.2
      [1, 1, 1, 1, 1, 1, 1, 1, 1, 1] hload (by norm_num [MIN_OBSERVATIONS_DAY])).1,
    (c4_daily_statuses oneGoodDayStore ["nope", "d1"]).1⟩

end CRIH100
